import Mathlib

/-
Verification of the request-admission and credential-substitution pipeline
of a reverse proxy for the OpenAI API (src/main.go).

The Go source is shallowly embedded:
  * the `config` loop that populates the `virtualKeys` map from the key file
    becomes `loadVirtualKeys` (a `Finset String`, matching the map's
    set-of-keys semantics);
  * `ReverseProxyHandler` becomes a pure function from the immutable
    configuration, the current value of the `accessCounter`, and the inbound
    request to a record holding the new counter value, the log records
    emitted, the locally synthesized response (if any), and the outbound
    request handed to the reverse proxy (if any);
  * the `director` closure becomes an explicit request transformer;
  * Go's `strings.HasPrefix` / `strings.TrimPrefix` / `strings.TrimSpace` /
    `strings.Split` are re-implemented on character lists (`TrimSpace` over
    the Latin-1 white-space characters recognized by `unicode.IsSpace`);
  * the `int64` counter and limit are modelled as `Int` (the counter only
    ever increments by one per request, so 64-bit overflow is unreachable
    over any feasible execution and is not modelled);
  * sequential executions of the handler (the mutex serializes the
    counter update) are modelled by `runRequests`, which threads the counter
    through a list of requests.
-/

namespace OpenAIProxy

/-- Go: `HOST_OPENAI_API = "api.openai.com"` (fixed upstream host). -/
def HOST_OPENAI_API : String := "api.openai.com"

/-- Characters accepted by Go's `unicode.IsSpace` in the Latin-1 range:
tab, newline, vertical tab, form feed, carriage return, space, NEL, NBSP. -/
def isGoSpace (c : Char) : Bool :=
  c == ' ' || c == '\t' || c == '\n' || c == '\x0b' || c == '\x0c' ||
  c == '\r' || c == '\x85' || c == '\xa0'

/-- Go: `strings.TrimSpace` — drop leading and trailing white space. -/
def trimChars (l : List Char) : List Char :=
  ((l.dropWhile isGoSpace).reverse.dropWhile isGoSpace).reverse

/-- Go: `strings.Split(s, "\n")` on the character level. Splitting the empty
string yields one empty field, and every newline separates two fields. -/
def splitNewline : List Char → List (List Char)
  | [] => [[]]
  | c :: cs =>
    if c = '\n' then [] :: splitNewline cs
    else
      match splitNewline cs with
      | [] => [[c]]
      | l :: ls => (c :: l) :: ls

/-- Whether the character list `p` is an initial segment of `s`
(Go: `strings.HasPrefix` on the character level). -/
def listIsPre : List Char → List Char → Bool
  | [], _ => true
  | _ :: _, [] => false
  | p :: ps, c :: cs => p == c && listIsPre ps cs

/-- Go: `strings.HasPrefix s pre`. -/
def goStartsWith (s pre : String) : Bool :=
  listIsPre pre.data s.data

/-- Go: `strings.TrimPrefix s pre` — remove `pre` from the front of `s` if
present, otherwise return `s` unchanged. -/
def goDropStart (s pre : String) : String :=
  if goStartsWith s pre then String.mk (s.data.drop pre.data.length) else s

/-- One iteration of the `config` loop: trim the line and insert it into
the key set when non-empty (Go: `virtualKeys[trimmedLine] = true`). -/
def insertTrimmed (m : Finset String) (line : List Char) : Finset String :=
  let trimmedLine := String.mk (trimChars line)
  if trimmedLine ≠ "" then insert trimmedLine m else m

/-- Go (`config`, the loop over `strings.Split(string(content), "\n")`):
trim each line; insert it into the `virtualKeys` map when non-empty.
The map's key set is modelled as a `Finset String`, so duplicate lines
collapse to a single membership entry exactly as in the Go map. -/
def loadVirtualKeys (content : String) : Finset String :=
  (splitNewline content.data).foldl insertTrimmed ∅

/-- The immutable process configuration consumed by the handler:
the `-access-count-limit` flag (`-1` means unlimited), the real key from
the `OPENAI_API_KEY` environment variable, and the loaded virtual keys. -/
structure Config where
  accessCountLimit : Int
  realKey : String
  virtualKeys : Finset String

/-- The parts of an `http.Request` the handler reads or rewrites.
Headers are an association list queried by `Header.Get` semantics
(first value wins) and updated by `Header.Set` semantics (replace). -/
structure Request where
  method : String
  path : String
  query : String
  urlScheme : String
  urlHost : String
  host : String
  headers : List (String × String)
  body : List Nat
  remoteAddr : String
deriving DecidableEq

/-- Go: `r.Header.Get(k)` — first value for the key, or `""` if absent. -/
def headerGet (hs : List (String × String)) (k : String) : String :=
  match hs.find? (fun p => p.1 == k) with
  | some p => p.2
  | none => ""

/-- Go: `req.Header.Set(k, v)` — replace every value for the key with `v`. -/
def headerSet (hs : List (String × String)) (k v : String) :
    List (String × String) :=
  hs.filter (fun p => !(p.1 == k)) ++ [(k, v)]

/-- Go (`ReverseProxyHandler` lines 110–114): extract the bearer key from the
`Authorization` header; absent header or missing `"Bearer "` scheme leaves
the key as the empty string. -/
def presentedKey (r : Request) : String :=
  let authHeader := headerGet r.headers "Authorization"
  if goStartsWith authHeader "Bearer " then goDropStart authHeader "Bearer "
  else ""

/-- Go: the `director` closure — retarget the request at the fixed upstream
host over https and set the `Authorization` header to the effective key. -/
def director (r : Request) (key : String) : Request :=
  { r with
    urlScheme := "https"
    urlHost := HOST_OPENAI_API
    host := HOST_OPENAI_API
    headers := headerSet r.headers "Authorization" ("Bearer " ++ key) }

/-- The admission decision of `ReverseProxyHandler` line 100 for a given
ordinal: admitted unless a limit is configured and the ordinal exceeds it. -/
def admitCheck (limit count : Int) : Bool :=
  if limit ≠ -1 ∧ count > limit then false else true

/-- Everything observable from one run of `ReverseProxyHandler`: the counter
value after the increment (the request's ordinal), the log records written,
the locally synthesized response (status code and body) if the request was
rejected, and the outbound request handed to the reverse proxy if not. -/
structure HandlerOutput where
  newCounter : Int
  logs : List String
  response : Option (Nat × String)
  outbound : Option Request
deriving DecidableEq

/-- Go: `ReverseProxyHandler` (src/main.go lines 87–137), as a pure function
of the configuration, the counter value before the mutex-protected
increment, and the inbound request. -/
def ReverseProxyHandler (cfg : Config) (accessCounter : Int)
    (r : Request) : HandlerOutput :=
  let count := accessCounter + 1
  let requestLog := "*** request No." ++ toString count ++ " from " ++
    r.remoteAddr
  if cfg.accessCountLimit ≠ -1 ∧ count > cfg.accessCountLimit then
    { newCounter := count
      logs := [requestLog,
        "****** Warning: Total access limit of " ++
          toString cfg.accessCountLimit ++ " exceeded"]
      response := some (422, "Total access count limit exceeded.")
      outbound := none }
  else
    let key0 := presentedKey r
    let key := if key0 ∈ cfg.virtualKeys then cfg.realKey else key0
    let warnLogs :=
      if key0 ∈ cfg.virtualKeys then ([] : List String)
      else ["****** Warning: No virtual key found"]
    { newCounter := count
      logs := requestLog :: warnLogs
      response := none
      outbound := some (director r key) }

/-- Sequential execution of the handler over a list of inbound requests,
threading the shared access counter (the mutex makes the increment atomic,
so any concurrent execution is equivalent to some sequential order). -/
def runRequests (cfg : Config) (accessCounter : Int) :
    List Request → List HandlerOutput
  | [] => []
  | r :: rs =>
    let o := ReverseProxyHandler cfg accessCounter r
    o :: runRequests cfg o.newCounter rs

/-- A concrete inbound request with the given header list, used to
instantiate the theorems below on explicit inputs. -/
def mkSampleRequest (hs : List (String × String)) : Request :=
  { method := "POST"
    path := "/v1/chat/completions"
    query := "stream=true"
    urlScheme := "http"
    urlHost := "localhost:48080"
    host := "localhost:48080"
    headers := hs
    body := [123, 34, 97, 34, 125]
    remoteAddr := "192.0.2.7:51000" }

/-! ### Helper lemmas about headers, the allow-list, and the handler -/

/-- A `find?` over a `filter` that can only remove elements failing the
search predicate finds the same element as over the original list. -/
lemma find?_filter_of_imp {α : Type} (l : List α) (p q : α → Bool)
    (h : ∀ x, p x = true → q x = true) :
    (l.filter q).find? p = l.find? p := by
  induction l with
  | nil => rfl
  | cons a l ih =>
    by_cases hq : q a = true
    · rw [List.filter_cons, if_pos hq]
      by_cases hp : p a = true
      · rw [List.find?_cons_of_pos _ hp, List.find?_cons_of_pos _ hp]
      · rw [List.find?_cons_of_neg _ (by simp_all),
          List.find?_cons_of_neg _ (by simp_all), ih]
    · have hp : p a = false := by
        cases hpa : p a
        · rfl
        · exact absurd (h a hpa) hq
      rw [List.filter_cons, if_neg hq, ih,
        List.find?_cons_of_neg _ (by simp [hp])]

lemma headerGet_headerSet_self (hs : List (String × String)) (k v : String) :
    headerGet (headerSet hs k v) k = v := by
  unfold headerGet headerSet
  rw [List.find?_append]
  have h1 : (hs.filter (fun p => !(p.1 == k))).find? (fun p => p.1 == k)
      = none := by
    rw [List.find?_eq_none]
    intro x hx
    have hx2 := (List.mem_filter.mp hx).2
    simp only [Bool.not_eq_true'] at hx2
    simp [hx2]
  rw [h1]
  simp [List.find?]

lemma headerGet_headerSet_of_ne (hs : List (String × String))
    (k v k2 : String) (hne : k2 ≠ k) :
    headerGet (headerSet hs k v) k2 = headerGet hs k2 := by
  unfold headerGet headerSet
  rw [List.find?_append]
  rw [find?_filter_of_imp hs (fun p => p.1 == k2) (fun p => !(p.1 == k))]
  · have h2 : ([(k, v)].find? (fun p => p.1 == k2)) = none := by
      rw [List.find?_eq_none]
      intro x hx
      simp only [List.mem_singleton] at hx
      subst hx
      simp [Ne.symm hne]
    rw [h2]
    cases hs.find? (fun p => p.1 == k2) <;> rfl
  · intro x hx
    simp only [beq_iff_eq] at hx
    simp [hx, hne]

lemma headerSet_headerSet (hs : List (String × String)) (k v v2 : String) :
    headerSet (headerSet hs k v) k v2 = headerSet hs k v2 := by
  unfold headerSet
  rw [List.filter_append, List.filter_filter]
  simp

lemma handler_newCounter (cfg : Config) (c : Int) (r : Request) :
    (ReverseProxyHandler cfg c r).newCounter = c + 1 := by
  simp only [ReverseProxyHandler]
  split <;> rfl

lemma handler_of_reject (cfg : Config) (c : Int) (r : Request)
    (h : cfg.accessCountLimit ≠ -1 ∧ c + 1 > cfg.accessCountLimit) :
    (ReverseProxyHandler cfg c r).outbound = none ∧
    (ReverseProxyHandler cfg c r).response =
      some (422, "Total access count limit exceeded.") := by
  simp only [ReverseProxyHandler]
  rw [if_pos h]
  exact ⟨rfl, rfl⟩

lemma handler_forward_case (cfg : Config) (c : Int) (r : Request)
    (h : ¬(cfg.accessCountLimit ≠ -1 ∧ c + 1 > cfg.accessCountLimit)) :
    (ReverseProxyHandler cfg c r).outbound =
      some (director r
        (if presentedKey r ∈ cfg.virtualKeys then cfg.realKey
         else presentedKey r)) ∧
    (ReverseProxyHandler cfg c r).response = none := by
  simp only [ReverseProxyHandler]
  rw [if_neg h]
  exact ⟨rfl, rfl⟩

lemma handler_outbound_eq (cfg : Config) (c : Int) (r : Request)
    (out : Request) (h : (ReverseProxyHandler cfg c r).outbound = some out) :
    out = director r
      (if presentedKey r ∈ cfg.virtualKeys then cfg.realKey
       else presentedKey r) := by
  by_cases hc : cfg.accessCountLimit ≠ -1 ∧ c + 1 > cfg.accessCountLimit
  · rw [(handler_of_reject cfg c r hc).1] at h
    cases h
  · rw [(handler_forward_case cfg c r hc).1] at h
    exact (Option.some.inj h).symm

lemma mem_foldl_insertTrimmed (k : String) (lines : List (List Char)) :
    ∀ (acc : Finset String),
      k ∈ lines.foldl insertTrimmed acc ↔
        (k ∈ acc ∨
          k ∈ (lines.map (fun l => String.mk (trimChars l))).filter
            (fun s => s ≠ "")) := by
  induction lines with
  | nil => intro acc; simp
  | cons l ls ih =>
    intro acc
    simp only [List.foldl_cons, List.map_cons, List.filter_cons]
    rw [ih]
    by_cases h : String.mk (trimChars l) = ""
    · rw [show insertTrimmed acc l = acc by simp [insertTrimmed, h]]
      rw [if_neg (by simp [h])]
    · rw [show insertTrimmed acc l = insert (String.mk (trimChars l)) acc by
        simp [insertTrimmed, h]]
      rw [if_pos (by simp [h])]
      simp only [Finset.mem_insert, List.mem_cons]
      tauto

lemma mem_loadVirtualKeys (content : String) (k : String) :
    k ∈ loadVirtualKeys content ↔
      k ∈ ((splitNewline content.data).map
            (fun l => String.mk (trimChars l))).filter (fun s => s ≠ "") := by
  unfold loadVirtualKeys
  rw [mem_foldl_insertTrimmed]
  simp

lemma runRequests_length (cfg : Config) (rs : List Request) :
    ∀ (c : Int), (runRequests cfg c rs).length = rs.length := by
  induction rs with
  | nil => intro c; rfl
  | cons r rs ih => intro c; simp [runRequests, ih]

lemma runRequests_map_newCounter (cfg : Config) (rs : List Request) :
    ∀ (c : Int),
      (runRequests cfg c rs).map HandlerOutput.newCounter
        = (List.range rs.length).map (fun (i : Nat) => c + (i : Int) + 1) := by
  induction rs with
  | nil => intro c; rfl
  | cons r rs ih =>
    intro c
    simp only [runRequests, List.map_cons, handler_newCounter,
      List.length_cons, List.range_succ_eq_map, List.map_map]
    congr 1
    · simp
    · rw [ih (c + 1)]
      refine List.map_congr_left ?_
      intro i _
      simp only [Function.comp_apply, Nat.succ_eq_add_one]
      push_cast
      ring

lemma handler_outbound_isSome (cfg : Config) (c : Int) (r : Request)
    (hL : 0 ≤ cfg.accessCountLimit) :
    (ReverseProxyHandler cfg c r).outbound.isSome =
      decide (c + 1 ≤ cfg.accessCountLimit) := by
  by_cases hadm : c + 1 ≤ cfg.accessCountLimit
  · rw [(handler_forward_case cfg c r (by omega)).1]
    simp [hadm]
  · rw [(handler_of_reject cfg c r (by omega)).1]
    simp [hadm]

lemma runRequests_admitted_count (cfg : Config)
    (hL : 0 ≤ cfg.accessCountLimit) (rs : List Request) :
    ∀ (c : Int), 0 ≤ c →
      ((runRequests cfg c rs).filter (fun o => o.outbound.isSome)).length
        = min rs.length (cfg.accessCountLimit - c).toNat := by
  induction rs with
  | nil => intro c _; simp [runRequests]
  | cons r rs ih =>
    intro c hc
    simp only [runRequests, List.filter_cons, handler_newCounter,
      handler_outbound_isSome cfg c r hL, List.length_cons]
    by_cases hadm : c + 1 ≤ cfg.accessCountLimit
    · rw [if_pos (by simp [hadm])]
      simp only [List.length_cons]
      rw [ih (c + 1) (by omega)]
      omega
    · rw [if_neg (by simp [hadm])]
      rw [ih (c + 1) (by omega)]
      omega

lemma presentedKey_of_no_scheme (r : Request)
    (h : goStartsWith (headerGet r.headers "Authorization") "Bearer "
      = false) :
    presentedKey r = "" := by
  simp [presentedKey, h]

lemma runRequests_all_rejected (cfg : Config)
    (h1 : cfg.accessCountLimit < 0) (h2 : cfg.accessCountLimit ≠ -1)
    (rs : List Request) :
    ∀ (c : Int), 0 ≤ c → ∀ o ∈ runRequests cfg c rs,
      o.outbound = none ∧
      o.response = some (422, "Total access count limit exceeded.") := by
  induction rs with
  | nil => intro c _ o ho; simp [runRequests] at ho
  | cons r rs ih =>
    intro c hc o ho
    simp only [runRequests, List.mem_cons] at ho
    rcases ho with rfl | ho
    · exact handler_of_reject cfg c r (by omega)
    · exact ih (c + 1) (by omega) o (by
        rw [handler_newCounter] at ho
        exact ho)

/-! ### The claims -/

/-- C1: if the presented credential is in the allow-list, the outbound
request carries the upstream secret; otherwise it carries exactly the
credential the caller presented — unknown credentials are forwarded
unchanged, not rejected locally. -/
theorem effective_credential_substitution (cfg : Config) (c : Int)
    (r : Request) (out : Request)
    (h : (ReverseProxyHandler cfg c r).outbound = some out) :
    (presentedKey r ∈ cfg.virtualKeys →
      headerGet out.headers "Authorization" = "Bearer " ++ cfg.realKey) ∧
    (presentedKey r ∉ cfg.virtualKeys →
      headerGet out.headers "Authorization" = "Bearer " ++ presentedKey r)
    := by
  have heq := handler_outbound_eq cfg c r out h
  subst heq
  constructor
  · intro hm
    simp [director, headerGet_headerSet_self, if_pos hm]
  · intro hm
    simp [director, headerGet_headerSet_self, if_neg hm]

/-- Witness for C1: with allow-list {"abc"} and secret "real", presenting
"Bearer abc" yields an outbound request carrying "Bearer real". -/
theorem effective_credential_substitution_witness :
    (ReverseProxyHandler ⟨-1, "real", {"abc"}⟩ 0
        (mkSampleRequest [("Authorization", "Bearer abc")])).outbound =
      some (director (mkSampleRequest [("Authorization", "Bearer abc")])
        "real") ∧
    presentedKey (mkSampleRequest [("Authorization", "Bearer abc")]) ∈
      (⟨-1, "real", {"abc"}⟩ : Config).virtualKeys ∧
    headerGet (director (mkSampleRequest [("Authorization", "Bearer abc")])
        "real").headers "Authorization" = "Bearer " ++ "real" :=
  ⟨by decide, by decide,
    (effective_credential_substitution ⟨-1, "real", {"abc"}⟩ 0
        (mkSampleRequest [("Authorization", "Bearer abc")])
        (director (mkSampleRequest [("Authorization", "Bearer abc")]) "real")
        (by decide)).1 (by decide)⟩

/-- C2: the gate yields admitted = false exactly when a ceiling is
configured (limit ≠ -1) and the ordinal strictly exceeds it — in every
other case (including the "unlimited" sentinel -1) the request is admitted;
and the handler withholds the outbound request exactly on a false gate. -/
theorem admission_decision_iff (cfg : Config) (c : Int) (r : Request) :
    ((ReverseProxyHandler cfg c r).outbound = none ↔
      admitCheck cfg.accessCountLimit (c + 1) = false) ∧
    (admitCheck cfg.accessCountLimit (c + 1) = false ↔
      (cfg.accessCountLimit ≠ -1 ∧ c + 1 > cfg.accessCountLimit)) := by
  have h2 : admitCheck cfg.accessCountLimit (c + 1) = false ↔
      (cfg.accessCountLimit ≠ -1 ∧ c + 1 > cfg.accessCountLimit) := by
    unfold admitCheck
    split
    · simp_all
    · simp_all
  refine ⟨?_, h2⟩
  rw [h2]
  constructor
  · intro h
    by_contra hc
    rw [(handler_forward_case cfg c r hc).1] at h
    cases h
  · intro hc
    exact (handler_of_reject cfg c r hc).1

/-- C3: a sequential run of N admission calls against a configured ceiling
C ≥ 0 admits exactly min(N, C) of them; the counter is bumped once per call
even on rejection, every call receiving the consecutive ordinals 1 … N with
none reused or skipped. -/
theorem admission_sequence_min_count (cfg : Config)
    (hC : 0 ≤ cfg.accessCountLimit) (rs : List Request) :
    ((runRequests cfg 0 rs).filter (fun o => o.outbound.isSome)).length
        = min rs.length cfg.accessCountLimit.toNat ∧
    (runRequests cfg 0 rs).map HandlerOutput.newCounter
        = (List.range rs.length).map (fun (i : Nat) => (i : Int) + 1) ∧
    (runRequests cfg 0 rs).length = rs.length := by
  refine ⟨?_, ?_, runRequests_length cfg rs 0⟩
  · have h := runRequests_admitted_count cfg hC rs 0 le_rfl
    simpa using h
  · have h := runRequests_map_newCounter cfg rs 0
    simpa using h

/-- Witness for C3: ceiling 2 over three requests — two admitted, ordinals
1, 2, 3, three outputs. -/
theorem admission_sequence_min_count_witness :
    0 ≤ (⟨2, "real", ∅⟩ : Config).accessCountLimit ∧
    (((runRequests ⟨2, "real", ∅⟩ 0
          (List.replicate 3 (mkSampleRequest []))).filter
            (fun o => o.outbound.isSome)).length
        = min (List.replicate 3 (mkSampleRequest [])).length
            (⟨2, "real", ∅⟩ : Config).accessCountLimit.toNat ∧
      (runRequests ⟨2, "real", ∅⟩ 0
          (List.replicate 3 (mkSampleRequest []))).map
            HandlerOutput.newCounter
        = (List.range (List.replicate 3 (mkSampleRequest [])).length).map
            (fun (i : Nat) => (i : Int) + 1) ∧
      (runRequests ⟨2, "real", ∅⟩ 0
          (List.replicate 3 (mkSampleRequest []))).length
        = (List.replicate 3 (mkSampleRequest [])).length) :=
  ⟨by decide,
    admission_sequence_min_count ⟨2, "real", ∅⟩ (by decide)
      (List.replicate 3 (mkSampleRequest []))⟩

/-- C4: a request the gate rejects receives the locally synthesized
HTTP 422 response and no outbound request is built — the forwarder and
hence the upstream are never reached. -/
theorem rejection_local_422_no_forward (cfg : Config) (c : Int) (r : Request)
    (h : admitCheck cfg.accessCountLimit (c + 1) = false) :
    (ReverseProxyHandler cfg c r).response =
      some (422, "Total access count limit exceeded.") ∧
    (ReverseProxyHandler cfg c r).outbound = none := by
  have hc : cfg.accessCountLimit ≠ -1 ∧ c + 1 > cfg.accessCountLimit := by
    unfold admitCheck at h
    split at h
    · assumption
    · cases h
  exact ⟨(handler_of_reject cfg c r hc).2, (handler_of_reject cfg c r hc).1⟩

/-- Witness for C4: ceiling 0 rejects the first request with a 422 and no
outbound request. -/
theorem rejection_local_422_no_forward_witness :
    admitCheck (⟨0, "real", ∅⟩ : Config).accessCountLimit (0 + 1) = false ∧
    ((ReverseProxyHandler ⟨0, "real", ∅⟩ 0 (mkSampleRequest [])).response =
        some (422, "Total access count limit exceeded.") ∧
      (ReverseProxyHandler ⟨0, "real", ∅⟩ 0 (mkSampleRequest [])).outbound =
        none) :=
  ⟨by decide,
    rejection_local_422_no_forward ⟨0, "real", ∅⟩ 0 (mkSampleRequest [])
      (by decide)⟩

/-- C5: the outbound request preserves method, path, query and body
byte-identically, targets the fixed upstream host over https, replaces the
Host header and Authorization header (set to "Bearer " plus the effective
credential), and passes every other header through untouched. -/
theorem rewrite_preserves_frame (cfg : Config) (c : Int) (r : Request)
    (out : Request)
    (h : (ReverseProxyHandler cfg c r).outbound = some out) :
    out.method = r.method ∧ out.path = r.path ∧ out.query = r.query ∧
    out.body = r.body ∧ out.urlScheme = "https" ∧
    out.urlHost = HOST_OPENAI_API ∧ out.host = HOST_OPENAI_API ∧
    headerGet out.headers "Authorization" =
      "Bearer " ++ (if presentedKey r ∈ cfg.virtualKeys then cfg.realKey
        else presentedKey r) ∧
    (∀ k, k ≠ "Authorization" →
      headerGet out.headers k = headerGet r.headers k) := by
  have heq := handler_outbound_eq cfg c r out h
  subst heq
  refine ⟨rfl, rfl, rfl, rfl, rfl, rfl, rfl, ?_, ?_⟩
  · exact headerGet_headerSet_self r.headers "Authorization" _
  · intro k hk
    exact headerGet_headerSet_of_ne r.headers "Authorization" _ k hk

/-- Witness for C5: a Content-Type header on the inbound request survives
the rewrite untouched. -/
theorem rewrite_preserves_frame_witness :
    (ReverseProxyHandler ⟨-1, "real", ∅⟩ 0
        (mkSampleRequest [("Content-Type", "application/json")])).outbound =
      some (director (mkSampleRequest [("Content-Type", "application/json")])
        "") ∧
    ("Content-Type" : String) ≠ "Authorization" ∧
    headerGet (director (mkSampleRequest
        [("Content-Type", "application/json")]) "").headers "Content-Type" =
      headerGet (mkSampleRequest
        [("Content-Type", "application/json")]).headers "Content-Type" :=
  ⟨by decide, by decide,
    (rewrite_preserves_frame ⟨-1, "real", ∅⟩ 0
        (mkSampleRequest [("Content-Type", "application/json")])
        (director (mkSampleRequest [("Content-Type", "application/json")])
          "")
        (by decide)).2.2.2.2.2.2.2.2 "Content-Type" (by decide)⟩

/-- C6: with the Authorization header absent or not carrying the "Bearer "
scheme, the presented credential is the empty string, the request is
handled exactly like one presenting the empty bearer credential, and when
admitted it is still forwarded — with the credential left unsubstituted
whenever the empty string is not in the allow-list. -/
theorem missing_bearer_empty_credential (cfg : Config) (c : Int)
    (r : Request)
    (h : goStartsWith (headerGet r.headers "Authorization") "Bearer "
      = false) :
    presentedKey r = "" ∧
    ReverseProxyHandler cfg c r =
      ReverseProxyHandler cfg c
        { r with headers := headerSet r.headers "Authorization" "Bearer " } ∧
    (admitCheck cfg.accessCountLimit (c + 1) = true →
      "" ∉ cfg.virtualKeys →
      (ReverseProxyHandler cfg c r).outbound = some (director r "")) := by
  have hpk : presentedKey r = "" := presentedKey_of_no_scheme r h
  have hpk2 : presentedKey
      { r with headers := headerSet r.headers "Authorization" "Bearer " }
      = "" := by
    simp only [presentedKey, headerGet_headerSet_self]
    decide
  refine ⟨hpk, ?_, ?_⟩
  · by_cases hc2 : cfg.accessCountLimit ≠ -1 ∧ c + 1 > cfg.accessCountLimit
    · simp only [ReverseProxyHandler]
      rw [if_pos hc2, if_pos hc2]
    · simp only [ReverseProxyHandler, director]
      rw [if_neg hc2, if_neg hc2, hpk, hpk2, headerSet_headerSet]
  · intro hok hE
    have hc2 : ¬(cfg.accessCountLimit ≠ -1 ∧ c + 1 > cfg.accessCountLimit)
        := by
      unfold admitCheck at hok
      split at hok
      · cases hok
      · assumption
    have hb := (handler_forward_case cfg c r hc2).1
    rw [hpk, if_neg hE] at hb
    exact hb

/-- Witness for C6: a request presenting "Basic Zm9v" is treated as the
empty credential, handled like an empty bearer, and forwarded with an
unsubstituted empty token. -/
theorem missing_bearer_empty_credential_witness :
    goStartsWith (headerGet
        (mkSampleRequest [("Authorization", "Basic Zm9v")]).headers
        "Authorization") "Bearer " = false ∧
    presentedKey (mkSampleRequest [("Authorization", "Basic Zm9v")]) = "" ∧
    ReverseProxyHandler ⟨-1, "real", {"abc"}⟩ 0
        (mkSampleRequest [("Authorization", "Basic Zm9v")]) =
      ReverseProxyHandler ⟨-1, "real", {"abc"}⟩ 0
        { mkSampleRequest [("Authorization", "Basic Zm9v")] with
          headers := headerSet
            (mkSampleRequest [("Authorization", "Basic Zm9v")]).headers
            "Authorization" "Bearer " } ∧
    (ReverseProxyHandler ⟨-1, "real", {"abc"}⟩ 0
        (mkSampleRequest [("Authorization", "Basic Zm9v")])).outbound =
      some (director (mkSampleRequest [("Authorization", "Basic Zm9v")]) "")
    :=
  ⟨by decide,
    (missing_bearer_empty_credential ⟨-1, "real", {"abc"}⟩ 0
      (mkSampleRequest [("Authorization", "Basic Zm9v")]) (by decide)).1,
    (missing_bearer_empty_credential ⟨-1, "real", {"abc"}⟩ 0
      (mkSampleRequest [("Authorization", "Basic Zm9v")]) (by decide)).2.1,
    (missing_bearer_empty_credential ⟨-1, "real", {"abc"}⟩ 0
      (mkSampleRequest [("Authorization", "Basic Zm9v")]) (by decide)).2.2
      (by decide) (by decide)⟩

/-- C7: allow-list loading trims each line, drops blank and pure-whitespace
lines, and collapses duplicates — membership in the loaded set is exactly
membership among the non-empty trimmed lines — and the file
"  tok1\n\n tok2 \n" loads to exactly the set {"tok1", "tok2"}. -/
theorem allowlist_trim_dedup :
    (∀ (content : String) (k : String),
      k ∈ loadVirtualKeys content ↔
        k ∈ ((splitNewline content.data).map
              (fun l => String.mk (trimChars l))).filter (fun s => s ≠ ""))
    ∧ loadVirtualKeys "  tok1\n\n tok2 \n" = {"tok1", "tok2"} :=
  ⟨fun content k => mem_loadVirtualKeys content k, by decide⟩

/-- C8: noninterference of the upstream secret — the handler's log records
and locally synthesized response are identical across two runs that differ
only in the secret, so the secret is never logged nor echoed to callers. -/
theorem upstream_secret_noninterference (limit : Int) (vk : Finset String)
    (rk1 rk2 : String) (c : Int) (r : Request) :
    (ReverseProxyHandler ⟨limit, rk1, vk⟩ c r).logs =
      (ReverseProxyHandler ⟨limit, rk2, vk⟩ c r).logs ∧
    (ReverseProxyHandler ⟨limit, rk1, vk⟩ c r).response =
      (ReverseProxyHandler ⟨limit, rk2, vk⟩ c r).response := by
  by_cases hC : (limit ≠ -1 ∧ c + 1 > limit) <;>
    by_cases hm : presentedKey r ∈ vk <;>
      constructor <;>
        simp [ReverseProxyHandler, hC, hm]

/-- C9: the loaded allow-list never contains the empty string, so a request
without a "Bearer " Authorization header is never substituted: its outbound
Authorization header is exactly "Bearer " with an empty token. -/
theorem empty_string_never_allowlisted (content : String) (limit : Int)
    (rk : String) (c : Int) (r : Request) (out : Request)
    (hAuth : goStartsWith (headerGet r.headers "Authorization") "Bearer "
      = false)
    (hout : (ReverseProxyHandler ⟨limit, rk, loadVirtualKeys content⟩ c
        r).outbound = some out) :
    "" ∉ loadVirtualKeys content ∧
    headerGet out.headers "Authorization" = "Bearer " := by
  have hempty : "" ∉ loadVirtualKeys content := by
    rw [mem_loadVirtualKeys]
    intro hmem
    have h2 := (List.mem_filter.mp hmem).2
    simp at h2
  have hpk : presentedKey r = "" := presentedKey_of_no_scheme r hAuth
  have heq := handler_outbound_eq _ c r out hout
  rw [hpk] at heq
  have heq2 : out = director r
      (if "" ∈ loadVirtualKeys content then rk else "") := heq
  rw [if_neg hempty] at heq2
  subst heq2
  refine ⟨hempty, ?_⟩
  have := headerGet_headerSet_self r.headers "Authorization"
    ("Bearer " ++ "")
  simpa [director] using this

/-- Witness for C9: loading "abc\n" yields a set without the empty string,
and a request with no Authorization header is forwarded with exactly
"Bearer ". -/
theorem empty_string_never_allowlisted_witness :
    goStartsWith (headerGet (mkSampleRequest []).headers "Authorization")
        "Bearer " = false ∧
    (ReverseProxyHandler ⟨-1, "real", loadVirtualKeys "abc\n"⟩ 0
        (mkSampleRequest [])).outbound =
      some (director (mkSampleRequest []) "") ∧
    ("" ∉ loadVirtualKeys "abc\n" ∧
      headerGet (director (mkSampleRequest []) "").headers "Authorization" =
        "Bearer ") :=
  ⟨by decide, by decide,
    empty_string_never_allowlisted "abc\n" (-1) "real" 0 (mkSampleRequest [])
      (director (mkSampleRequest []) "") (by decide) (by decide)⟩

/-- C10: a negative limit other than the sentinel -1 (for example -2)
rejects every request in any sequential run: an ordinal is always at least
1 and therefore always exceeds the limit, so no request is ever admitted. -/
theorem negative_limit_rejects_all (cfg : Config)
    (h1 : cfg.accessCountLimit < 0) (h2 : cfg.accessCountLimit ≠ -1)
    (rs : List Request) :
    ∀ o ∈ runRequests cfg 0 rs,
      o.outbound = none ∧
      o.response = some (422, "Total access count limit exceeded.") :=
  runRequests_all_rejected cfg h1 h2 rs 0 le_rfl

/-- Witness for C10: with limit -2 the very first request is rejected with
the local 422 and produces no outbound request. -/
theorem negative_limit_rejects_all_witness :
    (⟨-2, "real", ∅⟩ : Config).accessCountLimit < 0 ∧
    (⟨-2, "real", ∅⟩ : Config).accessCountLimit ≠ -1 ∧
    ((ReverseProxyHandler ⟨-2, "real", ∅⟩ 0 (mkSampleRequest [])).outbound =
        none ∧
      (ReverseProxyHandler ⟨-2, "real", ∅⟩ 0 (mkSampleRequest [])).response =
        some (422, "Total access count limit exceeded.")) :=
  ⟨by decide, by decide,
    negative_limit_rejects_all ⟨-2, "real", ∅⟩ (by decide) (by decide)
      [mkSampleRequest []]
      (ReverseProxyHandler ⟨-2, "real", ∅⟩ 0 (mkSampleRequest []))
      (by simp [runRequests])⟩

end OpenAIProxy
